import Mathlib

/-!
Shallow embedding of the RCS Zetta station-status collector
(`scripts/rcs_zetta.py`) and proofs of its specified properties.

Python dictionaries are modelled as insertion-ordered association lists
(`List (String × _)`), matching CPython's guaranteed key order.  HTTP calls
are abstracted as oracle arguments: a fetch either fails (`none`, covering
transport errors, timeouts, malformed JSON and envelope-validation failures
that the source converts to a caught exception) or yields the parsed
response.  The thread-per-batch fan-out of `Zetta.collect` is modelled twice:
sequentially (`runPoll`) and as an explicitly interleaved scheduler over
per-worker work lists (`PollState`, `workerStep`, `runSched`).
-/

namespace RcsZetta

/-- Python `d.get(k)` on an insertion-ordered association list. -/
def dictLookup (d : List (String × α)) (k : String) : Option α :=
  (d.find? (fun p => p.1 == k)).map Prod.snd

/-- Python `d.update(\x7bk: v\x7d)` / `d[k] = v`: overwrite the value in place
when the key already exists (keeping its position), otherwise append. -/
def dictUpdate (d : List (String × α)) (k : String) (v : α) : List (String × α) :=
  if d.any (fun p => p.1 == k) then
    d.map (fun p => if p.1 == k then (k, v) else p)
  else
    d ++ [(k, v)]

/-- A station record as returned by the `Station/list` endpoint: the
`Station` TypedDict before the locally added `groups` key. -/
structure RawStation where
  uuid : String
  name : String
  callLetters : String
  role : String
  internalId : Int
deriving DecidableEq

/-- The `Station` TypedDict: a raw station annotated with its group names. -/
structure Station where
  uuid : String
  name : String
  callLetters : String
  role : String
  internalId : Int
  groups : List String
deriving DecidableEq

/-- The `StationPlaylistItem` TypedDict. -/
structure StationPlaylistItem where
  playPosition : String
  duration : String
  durationToSegue : String
  uuid : String
  type : String
  assetType : String
  chainType : String
  artist : String
  title : String
  statusCode : String
  assetTypeName : String
  editCode : String
  airTime : String
deriving DecidableEq

/-- The `StationStatus` TypedDict. -/
structure StationStatus where
  onAirStatusLogEvents : List StationPlaylistItem
  mode : String
  status : String
deriving DecidableEq

/-- The `Fields` TypedDict.  The five `NotRequired` current-playback keys are
modelled as `Option`: `none` means the key is absent from the record. -/
structure Fields where
  s_uuid : String
  s_name : String
  s_callLetters : String
  s_role : String
  i_internalId : Int
  as_groups : List String
  s_mode : String
  s_status : String
  s_current_title : Option String
  s_current_status_code : Option String
  s_current_artist : Option String
  s_current_chainType : Option String
  s_current_assetType : Option String
deriving DecidableEq

/-- The `Document` TypedDict: the unit of collector output. -/
structure Document where
  host : String
  name : String
  fields : Fields
deriving DecidableEq

/-- Character-list helper for Python substring containment: does the first
list occur at the head of the second? -/
def begMatch : List Char → List Char → Bool
  | [], _ => true
  | _ :: _, [] => false
  | a :: as, b :: bs => a == b && begMatch as bs

/-- Character-list helper for Python substring containment: does the first
list occur anywhere in the second? -/
def subMatch : List Char → List Char → Bool
  | p, [] => begMatch p []
  | p, b :: bs => begMatch p (b :: bs) || subMatch p bs

/-- Python `pat in key` on strings (substring containment). -/
def strIn (pat key : String) : Bool :=
  subMatch pat.toList key.toList

/-- The collector configuration attributes set in `Zetta.__init__`
(lines 103-110).  `port` is kept as the raw string value: its `int`
conversion only feeds URL construction, which is outside this model. -/
structure ZettaConfig where
  http : String
  host : String
  port : String
  apikey : String
  username : String
  password : String
deriving DecidableEq

/-- The attribute defaults of `Zetta.__init__` (lines 103-110). -/
def initialConfig : ZettaConfig :=
  { http := "http", host := "127.0.0.1", port := "3139",
    apikey := "", username := "", password := "" }

/-- One iteration of the kwargs loop of `Zetta.__init__` (lines 121-140):
every option whose name occurs as a substring of the keyword and whose
(stringified) value is truthy overwrites the corresponding attribute. -/
def applyParam (c : ZettaConfig) (kv : String × String) : ZettaConfig :=
  let c1 := if strIn "host" kv.1 && kv.2 != "" then { c with host := kv.2 } else c
  let c2 := if strIn "apikey" kv.1 && kv.2 != "" then { c1 with apikey := kv.2 } else c1
  let c3 := if strIn "username" kv.1 && kv.2 != "" then { c2 with username := kv.2 } else c2
  let c4 := if strIn "password" kv.1 && kv.2 != "" then { c3 with password := kv.2 } else c3
  let c5 := if strIn "http" kv.1 && kv.2 != "" then { c4 with http := kv.2 } else c4
  if strIn "port" kv.1 && kv.2 != "" then { c5 with port := kv.2 } else c5

/-- The whole kwargs loop of `Zetta.__init__` (lines 121-140), over the
keyword arguments in their given order. -/
def parseParams (kwargs : List (String × String)) : ZettaConfig :=
  kwargs.foldl applyParam initialConfig

/-- `Zetta.__init__` up to and including the credential check
(lines 102-144): parse the keyword arguments, then abort (`sys.exit`,
modelled as `none`) when the API key, username or password is still empty. -/
def zettaInit (kwargs : List (String × String)) : Option ZettaConfig :=
  let c := parseParams kwargs
  if c.apikey = "" || c.username = "" || c.password = "" then none else some c

/-- Python truthiness test `not resp.get("responseType")` on an optional
string field: the key is absent or holds an empty string. -/
def falsyStr : Option String → Bool
  | none => true
  | some s => s == ""

/-- The envelope validation shared by the three fetchers (for example
lines 193-197): raise `ValueError` unless the `responseType` key exists, is
truthy, and equals `"success"`. -/
def envelopeFails (responseType : Option String) : Bool :=
  falsyStr responseType || responseType != some "success"

/-- The parsed JSON envelope of `GET /Station/list`. -/
structure StationListResponse where
  responseType : Option String
  dataObject : List RawStation
deriving DecidableEq

/-- A record of the `Organization/list` data array.  The
`stationUUIDCollection` key may be absent (`none`): the source guards it
with `org.get`. -/
structure RawOrg where
  uuid : String
  name : String
  stationUUIDCollection : Option (List String)
deriving DecidableEq

/-- The parsed JSON envelope of `GET /Organization/list`. -/
structure OrgListResponse where
  responseType : Option String
  dataObject : List RawOrg
deriving DecidableEq

/-- The station value stored by `collect_stations` (line 208): the fetched
record with `groups` initialized to the empty list. -/
def mkStation (r : RawStation) : Station :=
  { uuid := r.uuid, name := r.name, callLetters := r.callLetters,
    role := r.role, internalId := r.internalId, groups := [] }

/-- The record loop of `collect_stations` (lines 207-209). -/
def stationFold (recs : List RawStation) (d : List (String × Station)) :
    List (String × Station) :=
  recs.foldl (fun d r => dictUpdate d r.uuid (mkStation r)) d

/-- `Zetta.collect_stations` (lines 168-214) as a function of the fetched
response: `none` models a transport or JSON failure; an invalid envelope
raises `ValueError`; every exception is caught and the dict built so far
(still empty at that point) is returned. -/
def collect_stations (resp : Option StationListResponse) : List (String × Station) :=
  match resp with
  | none => []
  | some r =>
    if envelopeFails r.responseType then [] else stationFold r.dataObject []

/-- The record loop of `collect_org_groups` (lines 256-259): an organization
is kept only when its `stationUUIDCollection` key exists and is truthy
(non-empty), keyed by organization name. -/
def orgFold (recs : List RawOrg) (d : List (String × List String)) :
    List (String × List String) :=
  recs.foldl (fun d o =>
    match o.stationUUIDCollection with
    | none => d
    | some col => if col = [] then d else dictUpdate d o.name col) d

/-- `Zetta.collect_org_groups` (lines 216-264) as a function of the fetched
response, with the same failure handling as `collect_stations`. -/
def collect_org_groups (resp : Option OrgListResponse) : List (String × List String) :=
  match resp with
  | none => []
  | some r =>
    if envelopeFails r.responseType then [] else orgFold r.dataObject []

/-- The inner loop of `Zetta.__init__` (lines 160-164): append to the
station's group list the name of every organization whose member list
holds the station's uuid, in the organization dict's iteration order. -/
def assignGroups (orgs : List (String × List String)) (st : Station) : Station :=
  { st with
    groups := orgs.foldl (fun g q => if st.uuid ∈ q.2 then g ++ [q.1] else g) st.groups }

/-- Directory construction in `Zetta.__init__` (lines 155-164), as a
function of the two backend responses. -/
def buildDirectory (stResp : Option StationListResponse)
    (orgResp : Option OrgListResponse) : List (String × Station) :=
  let orgs := collect_org_groups orgResp
  (collect_stations stResp).map (fun p => (p.1, assignGroups orgs p.2))

/-- Number of stations in a polling group (line 96). -/
def POLLNG_GROUPS : Nat := 25

/-- `list(zip_longest(*[iter(l)]*n))` in `Zetta.collect` (lines 329-333):
cut `l` into consecutive groups of `n`, the last one padded with `None`
(`none`) up to length `n`; an empty input, or `n = 0`, yields no groups. -/
def grouper (n : Nat) (l : List α) : List (List (Option α)) :=
  match l, n with
  | [], _ => []
  | _ :: _, 0 => []
  | x :: xs, m + 1 =>
    (((x :: xs).take (m + 1)).map some ++ List.replicate ((m + 1) - (x :: xs).length) none)
      :: grouper (m + 1) ((x :: xs).drop (m + 1))
termination_by l.length
decreasing_by
  simp only [List.length_drop, List.length_cons]
  omega

/-- The per-item guard of `station_process` (lines 317-320): padding
sentinels (`None`) and falsy uuids (the empty string) are skipped; the
remaining uuids are used in order. -/
def realIds (b : List (Option String)) : List String :=
  b.filterMap (fun o =>
    match o with
    | none => none
    | some u => if u = "" then none else some u)

/-- `Zetta.station_process` (lines 308-323) with the per-station status
fetch abstracted as an oracle: `none` models a failed
`collect_station_status` call (or a falsy response payload), whose entry is
simply not merged into the collection. -/
def station_process (fetch : String → Option StationStatus)
    (stations : List (Option String)) (collection : List (String × StationStatus)) :
    List (String × StationStatus) :=
  stations.foldl (fun coll o =>
    match o with
    | none => coll
    | some u =>
      if u = "" then coll
      else
        match fetch u with
        | none => coll
        | some resp => dictUpdate coll u resp) collection

/-- The fan-out phase of `Zetta.collect` (lines 328-352), with the
thread-per-batch execution sequentialized batch by batch.  The interleaved
execution is modelled separately below via `runSched`. -/
def runPoll (fetch : String → Option StationStatus) (store : List (String × Station)) :
    List (String × StationStatus) :=
  (grouper POLLNG_GROUPS (store.map Prod.fst)).foldl
    (fun coll g => station_process fetch g coll) []

/-- The fields record built in `Zetta.collect` (lines 357-375): the five
`s_current` keys are added only when `onAirStatusLogEvents` is non-empty,
sourced from its head element. -/
def mkFields (k : String) (st : Station) (v : StationStatus) : Fields :=
  let base : Fields :=
    { s_uuid := k, s_name := st.name, s_callLetters := st.callLetters,
      s_role := st.role, i_internalId := st.internalId, as_groups := st.groups,
      s_mode := v.mode, s_status := v.status,
      s_current_title := none, s_current_status_code := none,
      s_current_artist := none, s_current_chainType := none,
      s_current_assetType := none }
  match v.onAirStatusLogEvents with
  | [] => base
  | e :: _ =>
    { base with
      s_current_artist := some e.artist,
      s_current_assetType := some e.assetType,
      s_current_chainType := some e.chainType,
      s_current_status_code := some e.statusCode,
      s_current_title := some e.title }

/-- One output document of `Zetta.collect` (line 377). -/
def mkDocument (host k : String) (st : Station) (v : StationStatus) : Document :=
  { host := host, name := "zetta", fields := mkFields k st v }

/-- The document loop of `Zetta.collect` (lines 354-379): the station
lookup `self.station_store[k]` raises `KeyError` for an unknown key,
modelled by `none`. -/
def buildDocuments (host : String) (store : List (String × Station)) :
    List (String × StationStatus) → Option (List Document)
  | [] => some []
  | (k, v) :: rest =>
    match dictLookup store k with
    | none => none
    | some st => (buildDocuments host store rest).map (fun ds => mkDocument host k st v :: ds)

/-- `Zetta.collect` (lines 325-384) end to end: fan out the status fetches,
build the documents, and run the final debug print `documents[0]`
(line 382), which raises `IndexError` when the document list is empty. -/
def collect (host : String) (fetch : String → Option StationStatus)
    (store : List (String × Station)) : Except String (List Document) :=
  match buildDocuments host store (runPoll fetch store) with
  | none => Except.error "KeyError"
  | some docs => if docs = [] then Except.error "IndexError" else Except.ok docs

/-- State of the fan-out phase in the interleaved model: the uuids every
worker still has to process (one work list per thread, already filtered by
the `station_process` guard), and the shared collection dict. -/
structure PollState where
  rem : List (List String)
  coll : List (String × StationStatus)

/-- One step of worker `i` in the interleaved model: process the next uuid
of batch `i` exactly as the loop body of `station_process` does. -/
def workerStep (fetch : String → Option StationStatus) (s : PollState) (i : Nat) :
    PollState :=
  match s.rem[i]? with
  | none => s
  | some [] => s
  | some (u :: rest) =>
    { rem := s.rem.set i rest
      coll :=
        match fetch u with
        | none => s.coll
        | some resp => dictUpdate s.coll u resp }

/-- Run one interleaving of the worker threads: the schedule lists which
worker performs each successive step. -/
def runSched (fetch : String → Option StationStatus) (sched : List Nat)
    (s : PollState) : PollState :=
  sched.foldl (workerStep fetch) s

/-- Concrete playlist item used to instantiate theorems with hypotheses. -/
def wItem : StationPlaylistItem :=
  { playPosition := "1", duration := "180", durationToSegue := "175",
    uuid := "11111111", type := "log", assetType := "song", chainType := "music",
    artist := "Q", title := "R", statusCode := "OK", assetTypeName := "Song",
    editCode := "0", airTime := "12:00" }

/-- Concrete station status used to instantiate theorems with hypotheses. -/
def wStatus : StationStatus :=
  { onAirStatusLogEvents := [wItem], mode := "auto", status := "onAir" }

/-- Concrete raw station used to instantiate theorems with hypotheses. -/
def wStation : RawStation :=
  { uuid := "a", name := "X", callLetters := "PMA", role := "station", internalId := 1 }

/-- Concrete status-fetch oracle used to instantiate theorems with
hypotheses: the fetch succeeds for station "a" and fails otherwise. -/
def wFetch : String → Option StationStatus :=
  fun u => if u = "a" then some wStatus else none


/-! Basic lemmas about the dict model. -/

theorem dictLookup_nil (k : String) : dictLookup ([] : List (String × α)) k = none := rfl

theorem dictLookup_cons (p : String × α) (d : List (String × α)) (k : String) :
    dictLookup (p :: d) k = if p.1 = k then some p.2 else dictLookup d k := by
  by_cases h : p.1 = k <;> simp [dictLookup, List.find?_cons, h]

theorem dictLookup_map_ne (d : List (String × α)) (k k' : String) (v : α) (h : k' ≠ k) :
    dictLookup (d.map (fun p => if p.1 == k then (k, v) else p)) k' = dictLookup d k' := by
  simp only [beq_iff_eq]
  induction d with
  | nil => rfl
  | cons p ps ih =>
    by_cases hp : p.1 = k
    · simp [dictLookup_cons, hp, Ne.symm h, ih]
    · simp [dictLookup_cons, hp, ih]

theorem dictLookup_map_self (d : List (String × α)) (k : String) (v : α)
    (h : ∃ p ∈ d, p.1 = k) :
    dictLookup (d.map (fun p => if p.1 == k then (k, v) else p)) k = some v := by
  simp only [beq_iff_eq]
  induction d with
  | nil => simp at h
  | cons p ps ih =>
    by_cases hp : p.1 = k
    · simp [dictLookup_cons, hp]
    · have hps : ∃ q ∈ ps, q.1 = k := by
        rcases h with ⟨q, hq, hqk⟩
        rcases List.mem_cons.mp hq with rfl | hq
        · exact absurd hqk hp
        · exact ⟨q, hq, hqk⟩
      simp [dictLookup_cons, hp, ih hps]

theorem dictLookup_append (d e : List (String × α)) (k : String) :
    dictLookup (d ++ e) k =
      match dictLookup d k with
      | some v => some v
      | none => dictLookup e k := by
  induction d with
  | nil => rfl
  | cons p ps ih =>
    rw [List.cons_append, dictLookup_cons, dictLookup_cons]
    by_cases hp : p.1 = k
    · simp [hp]
    · simp [hp, ih]

theorem dictLookup_eq_none_of_not_any (d : List (String × α)) (k : String)
    (h : d.any (fun p => p.1 == k) = false) : dictLookup d k = none := by
  unfold dictLookup
  rw [List.find?_eq_none.mpr]
  · rfl
  · intro p hp
    simp only [List.any_eq_false] at h
    exact h p hp

theorem dictLookup_dictUpdate (d : List (String × α)) (k k' : String) (v : α) :
    dictLookup (dictUpdate d k v) k' = if k' = k then some v else dictLookup d k' := by
  unfold dictUpdate
  by_cases hany : d.any (fun p => p.1 == k) = true
  · rw [if_pos hany]
    by_cases h : k' = k
    · subst h
      simp only [List.any_eq_true] at hany
      rcases hany with ⟨p, hp, hpk⟩
      rw [if_pos rfl]
      exact dictLookup_map_self d k' v ⟨p, hp, by simpa using hpk⟩
    · rw [if_neg h, dictLookup_map_ne d k k' v h]
  · rw [if_neg hany]
    have hnone : dictLookup d k = none :=
      dictLookup_eq_none_of_not_any d k (Bool.eq_false_iff.mpr hany)
    rw [dictLookup_append]
    by_cases h : k' = k
    · subst h
      simp [hnone, dictLookup_cons]
    · rw [if_neg h]
      cases hl : dictLookup d k' <;> simp [hl, dictLookup_cons, dictLookup_nil, Ne.symm h]

theorem keys_dictUpdate (d : List (String × α)) (k : String) (v : α) :
    (dictUpdate d k v).map Prod.fst =
      if k ∈ d.map Prod.fst then d.map Prod.fst else d.map Prod.fst ++ [k] := by
  unfold dictUpdate
  by_cases hmem : k ∈ d.map Prod.fst
  · have hany : d.any (fun p => p.1 == k) = true := by
      rcases List.mem_map.mp hmem with ⟨p, hp, hpk⟩
      simp only [List.any_eq_true]
      exact ⟨p, hp, by simpa using hpk⟩
    rw [if_pos hany, if_pos hmem, List.map_map]
    apply List.map_congr_left
    intro p _
    by_cases hpk : p.1 = k <;> simp [hpk]
  · have hany : d.any (fun p => p.1 == k) = false := by
      simp only [List.any_eq_false]
      intro p hp
      intro hk
      exact hmem (List.mem_map.mpr ⟨p, hp, by simpa using hk⟩)
    rw [if_neg (by simp [hany]), if_neg hmem]
    simp

theorem keys_nodup_dictUpdate (d : List (String × α)) (k : String) (v : α)
    (h : (d.map Prod.fst).Nodup) : ((dictUpdate d k v).map Prod.fst).Nodup := by
  rw [keys_dictUpdate]
  by_cases hmem : k ∈ d.map Prod.fst
  · simpa [hmem] using h
  · simp [hmem, List.nodup_append, h]

theorem mem_dictUpdate {d : List (String × α)} {k : String} {v : α} {p : String × α}
    (h : p ∈ dictUpdate d k v) : p ∈ d ∨ p = (k, v) := by
  unfold dictUpdate at h
  split at h
  · rcases List.mem_map.mp h with ⟨q, hq, hfq⟩
    by_cases hqk : q.1 = k
    · right; rw [← hfq]; simp [hqk]
    · left
      rw [← hfq]
      simpa [hqk] using hq
  · rcases List.mem_append.mp h with h | h
    · left; exact h
    · right; simpa using h

theorem dictUpdate_fresh (d : List (String × α)) (k : String) (v : α)
    (h : ∀ p ∈ d, p.1 ≠ k) : dictUpdate d k v = d ++ [(k, v)] := by
  have hfalse : d.any (fun p => p.1 == k) = false := by
    simp only [List.any_eq_false]
    intro p hp
    simpa using h p hp
  unfold dictUpdate
  rw [if_neg (by simp [hfalse])]

/-! Lemmas about the batch partitioner. -/

theorem grouper_nil (n : Nat) : grouper n ([] : List α) = [] := by
  cases n <;> simp [grouper]

theorem grouper_cons (m : Nat) (x : α) (xs : List α) :
    grouper (m + 1) (x :: xs) =
      (((x :: xs).take (m + 1)).map some ++ List.replicate ((m + 1) - (x :: xs).length) none)
        :: grouper (m + 1) ((x :: xs).drop (m + 1)) := by
  rw [grouper]

theorem realIds_map_some {t : List String} (h : "" ∉ t) : realIds (t.map some) = t := by
  induction t with
  | nil => rfl
  | cons a as iha =>
    have ha : a ≠ "" := by rintro rfl; exact h (List.mem_cons_self _ _)
    have h' : "" ∉ as := fun hm => h (List.mem_cons_of_mem _ hm)
    simp [realIds, List.filterMap_cons, ha] at iha ⊢
    exact iha h'

theorem realIds_replicate (k : Nat) : realIds (List.replicate k (none : Option String)) = [] := by
  induction k with
  | zero => rfl
  | succ j ih => simp [realIds, List.replicate_succ, List.filterMap_cons] at ih ⊢

theorem realIds_append (a b : List (Option String)) :
    realIds (a ++ b) = realIds a ++ realIds b := by
  simp [realIds, List.filterMap_append]

theorem grouper_batch_length {n : Nat} {l : List α} {b : List (Option α)}
    (hb : b ∈ grouper n l) : b.length = n := by
  induction n, l using grouper.induct with
  | case1 => simp [grouper_nil] at hb
  | case2 => simp [grouper] at hb
  | case3 x xs m ih =>
    rw [grouper_cons] at hb
    rcases List.mem_cons.mp hb with rfl | hb
    · simp only [List.length_append, List.length_map, List.length_take,
        List.length_replicate, List.length_cons]
      omega
    · exact ih hb

theorem grouper_flatten_realIds {l : List String} (hns : "" ∉ l) {n : Nat} (hn : n ≠ 0) :
    ((grouper n l).map realIds).flatten = l := by
  induction n, l using grouper.induct with
  | case1 => simp [grouper_nil]
  | case2 x xs => exact absurd rfl hn
  | case3 x xs m ih =>
    rw [grouper_cons, List.map_cons, List.flatten_cons]
    have hns_take : "" ∉ (x :: xs).take (m + 1) :=
      fun hm => hns ((List.take_sublist _ _).mem hm)
    have hns_drop : "" ∉ (x :: xs).drop (m + 1) :=
      fun hm => hns ((List.drop_sublist _ _).mem hm)
    rw [realIds_append, realIds_map_some hns_take, realIds_replicate, List.append_nil,
      ih hns_drop hn, List.take_append_drop]

theorem grouper_mem_real {n : Nat} {l : List α} {b : List (Option α)} {u : α}
    (hb : b ∈ grouper n l) (hu : some u ∈ b) : u ∈ l := by
  induction n, l using grouper.induct with
  | case1 => simp [grouper_nil] at hb
  | case2 => simp [grouper] at hb
  | case3 x xs m ih =>
    rw [grouper_cons] at hb
    rcases List.mem_cons.mp hb with rfl | hb
    · rcases List.mem_append.mp hu with hu | hu
      · rcases List.mem_map.mp hu with ⟨w, hw, hws⟩
        cases hws
        exact (List.take_sublist _ _).mem hw
      · exact absurd (List.eq_of_mem_replicate hu) (by simp)
    · exact (List.drop_sublist _ _).mem (ih hb)

/-- C2: partitioning a non-empty duplicate-free list of (non-empty) station
identifiers into batches of `POLLNG_GROUPS = 25` yields batches whose
sentinel-filtered concatenation is exactly the input list (so their union is
the input set, in the directory iteration order), whose pairwise
intersections are empty, and each of which holds at most 25 real
identifiers. -/
theorem batch_partition (l : List String) (hne : l ≠ []) (hnd : l.Nodup) (hns : "" ∉ l) :
    ((grouper POLLNG_GROUPS l).map realIds).flatten = l ∧
      (∀ b ∈ grouper POLLNG_GROUPS l, (realIds b).length ≤ POLLNG_GROUPS) ∧
      (grouper POLLNG_GROUPS l).Pairwise (fun a b => ∀ u ∈ realIds a, u ∉ realIds b) := by
  have hfl : ((grouper POLLNG_GROUPS l).map realIds).flatten = l :=
    grouper_flatten_realIds hns (by simp [POLLNG_GROUPS])
  refine ⟨hfl, ?_, ?_⟩
  · intro b hb
    calc (realIds b).length ≤ b.length := List.length_filterMap_le _ _
      _ = POLLNG_GROUPS := grouper_batch_length hb
  · have hnj : (((grouper POLLNG_GROUPS l).map realIds).flatten).Nodup := by
      rw [hfl]; exact hnd
    have hpw := (List.nodup_flatten.mp hnj).2
    rw [List.pairwise_map] at hpw
    exact hpw.imp (fun h u hu1 hu2 => h hu1 hu2)

/-- Witness for batch_partition at the concrete identifier list ["a", "b"]. -/
theorem batch_partition_witness :
    ((grouper POLLNG_GROUPS ["a", "b"]).map realIds).flatten = ["a", "b"] ∧
      (∀ b ∈ grouper POLLNG_GROUPS ["a", "b"], (realIds b).length ≤ POLLNG_GROUPS) ∧
      (grouper POLLNG_GROUPS ["a", "b"]).Pairwise (fun a b => ∀ u ∈ realIds a, u ∉ realIds b) :=
  batch_partition ["a", "b"] (by decide) (by decide) (by decide)
/-! Duplicate-freedom of group assignments. -/

theorem orgFold_keys_nodup (recs : List RawOrg) (d : List (String × List String))
    (h : (d.map Prod.fst).Nodup) : ((orgFold recs d).map Prod.fst).Nodup := by
  induction recs generalizing d with
  | nil => exact h
  | cons o os ih =>
    cases hc : o.stationUUIDCollection with
    | none =>
      have step : orgFold (o :: os) d = orgFold os d := by
        simp [orgFold, List.foldl_cons, hc]
      rw [step]
      exact ih d h
    | some col =>
      by_cases hcol : col = []
      · have step : orgFold (o :: os) d = orgFold os d := by
          simp [orgFold, List.foldl_cons, hc, hcol]
        rw [step]
        exact ih d h
      · have step : orgFold (o :: os) d = orgFold os (dictUpdate d o.name col) := by
          simp [orgFold, List.foldl_cons, hc, hcol]
        rw [step]
        exact ih _ (keys_nodup_dictUpdate d o.name col h)

theorem collect_org_groups_keys_nodup (resp : Option OrgListResponse) :
    ((collect_org_groups resp).map Prod.fst).Nodup := by
  match resp with
  | none => simp [collect_org_groups]
  | some r =>
    simp only [collect_org_groups]
    split
    · simp
    · exact orgFold_keys_nodup r.dataObject [] (by simp)

theorem stationFold_groups_nil (recs : List RawStation) (d : List (String × Station))
    (h : ∀ p ∈ d, p.2.groups = []) :
    ∀ p ∈ stationFold recs d, p.2.groups = [] := by
  induction recs generalizing d with
  | nil => exact h
  | cons r rs ih =>
    have step : stationFold (r :: rs) d = stationFold rs (dictUpdate d r.uuid (mkStation r)) := rfl
    rw [step]
    refine ih _ ?_
    intro p hp
    rcases mem_dictUpdate hp with hp | rfl
    · exact h p hp
    · rfl

theorem collect_stations_groups_nil (resp : Option StationListResponse) :
    ∀ p ∈ collect_stations resp, p.2.groups = [] := by
  match resp with
  | none => intro p hp; simp [collect_stations] at hp
  | some r =>
    simp only [collect_stations]
    split
    · intro p hp; simp at hp
    · exact stationFold_groups_nil r.dataObject [] (by simp)

theorem foldl_append_filter (orgs : List (String × List String)) (u : String)
    (g : List String) :
    orgs.foldl (fun g q => if u ∈ q.2 then g ++ [q.1] else g) g =
      g ++ (orgs.filter (fun q => u ∈ q.2)).map Prod.fst := by
  induction orgs generalizing g with
  | nil => simp
  | cons q qs ih =>
    by_cases hq : u ∈ q.2
    · simp [List.foldl_cons, hq, ih, List.filter_cons]
    · simp [List.foldl_cons, hq, ih, List.filter_cons]

theorem assignGroups_groups (orgs : List (String × List String)) (st : Station) :
    (assignGroups orgs st).groups =
      st.groups ++ (orgs.filter (fun q => st.uuid ∈ q.2)).map Prod.fst := by
  simp [assignGroups, foldl_append_filter]

/-- C10: after directory assembly every station's group-membership sequence
is duplicate-free: the organization dict is keyed by organization name, so
each name is appended to a given station at most once per build. -/
theorem groups_nodup (stResp : Option StationListResponse)
    (orgResp : Option OrgListResponse) :
    ∀ p ∈ buildDirectory stResp orgResp, p.2.groups.Nodup := by
  intro p hp
  unfold buildDirectory at hp
  rcases List.mem_map.mp hp with ⟨q, hq, rfl⟩
  show (assignGroups (collect_org_groups orgResp) q.2).groups.Nodup
  rw [assignGroups_groups, collect_stations_groups_nil stResp q hq, List.nil_append]
  have hsub : List.Sublist
      (((collect_org_groups orgResp).filter (fun o => q.2.uuid ∈ o.2)).map Prod.fst)
      ((collect_org_groups orgResp).map Prod.fst) :=
    (List.filter_sublist _).map Prod.fst
  exact (collect_org_groups_keys_nodup orgResp).sublist hsub

/-- Witness for groups_nodup on a one-station, one-organization backend. -/
theorem groups_nodup_witness :
    (("a", assignGroups [("60s", ["a"])] (mkStation wStation)) :
      String × Station).2.groups.Nodup :=
  groups_nodup (some ⟨some "success", [wStation]⟩)
    (some ⟨some "success", [⟨"o1", "60s", some ["a"]⟩]⟩)
    ("a", assignGroups [("60s", ["a"])] (mkStation wStation)) (by decide)

/-! The interleaved execution of the batch workers. -/

theorem flatten_set_cons {l : List (List α)} {i : Nat} {u : α} {rest : List α}
    (h : l[i]? = some (u :: rest)) :
    ∃ A B, l.flatten = A ++ u :: B ∧ (l.set i rest).flatten = A ++ B := by
  induction l generalizing i with
  | nil => simp at h
  | cons hd tl ih =>
    cases i with
    | zero =>
      simp only [List.getElem?_cons_zero, Option.some_inj] at h
      subst h
      exact ⟨[], rest ++ tl.flatten, by simp, by simp⟩
    | succ j =>
      simp only [List.getElem?_cons_succ] at h
      obtain ⟨A, B, hA, hB⟩ := ih h
      exact ⟨hd ++ A, B, by simp [hA], by simp [hB]⟩

theorem workerStep_inv (fetch : String → Option StationStatus) (A : List String)
    (s : PollState) (i : Nat)
    (h1 : s.rem.flatten.Nodup) (h2 : ∀ k ∈ s.rem.flatten, k ∈ A)
    (h3 : ∀ k ∈ A, dictLookup s.coll k =
      if k ∈ s.rem.flatten then none else fetch k) :
    (workerStep fetch s i).rem.flatten.Nodup ∧
      (∀ k ∈ (workerStep fetch s i).rem.flatten, k ∈ A) ∧
      (∀ k ∈ A, dictLookup (workerStep fetch s i).coll k =
        if k ∈ (workerStep fetch s i).rem.flatten then none else fetch k) := by
  rcases hrem : s.rem[i]? with _ | b
  · simp only [workerStep, hrem]
    exact ⟨h1, h2, h3⟩
  · cases b with
    | nil =>
      simp only [workerStep, hrem]
      exact ⟨h1, h2, h3⟩
    | cons u rest =>
      simp only [workerStep, hrem]
      obtain ⟨X, Y, hfl, hfl2⟩ := flatten_set_cons hrem
      rw [hfl] at h1
      have hmid := List.nodup_cons.mp (List.nodup_middle.mp h1)
      have hu : u ∉ X ++ Y := hmid.1
      have hXY : (X ++ Y).Nodup := hmid.2
      have hmemiff : ∀ k, k ≠ u → (k ∈ X ++ u :: Y ↔ k ∈ X ++ Y) := by
        intro k hku
        simp [List.mem_append, List.mem_cons, hku]
      refine ⟨?_, ?_, ?_⟩
      · rw [hfl2]
        exact hXY
      · intro k hk
        rw [hfl2] at hk
        apply h2
        rw [hfl]
        rcases List.mem_append.mp hk with hk | hk
        · exact List.mem_append_left _ hk
        · exact List.mem_append_right _ (List.mem_cons_of_mem _ hk)
      · intro k hkA
        have hold := h3 k hkA
        rw [hfl] at hold
        rw [hfl2]
        cases hfu : fetch u with
        | none =>
          simp only [hfu]
          by_cases hku : k = u
          · subst hku
            rw [if_neg hu]
            rw [if_pos (by simp)] at hold
            rw [hold, hfu]
          · rw [hold]
            by_cases hmem : k ∈ X ++ Y
            · rw [if_pos hmem, if_pos ((hmemiff k hku).mpr hmem)]
            · rw [if_neg hmem, if_neg (fun hc => hmem ((hmemiff k hku).mp hc))]
        | some resp =>
          simp only [hfu]
          rw [dictLookup_dictUpdate]
          by_cases hku : k = u
          · subst hku
            rw [if_pos rfl, if_neg hu, hfu]
          · rw [if_neg hku, hold]
            by_cases hmem : k ∈ X ++ Y
            · rw [if_pos ((hmemiff k hku).mpr hmem), if_pos hmem]
            · rw [if_neg (fun hc => hmem ((hmemiff k hku).mp hc)), if_neg hmem]

theorem runSched_inv (fetch : String → Option StationStatus) (A : List String)
    (sched : List Nat) (s : PollState)
    (h1 : s.rem.flatten.Nodup) (h2 : ∀ k ∈ s.rem.flatten, k ∈ A)
    (h3 : ∀ k ∈ A, dictLookup s.coll k =
      if k ∈ s.rem.flatten then none else fetch k) :
    (runSched fetch sched s).rem.flatten.Nodup ∧
      (∀ k ∈ (runSched fetch sched s).rem.flatten, k ∈ A) ∧
      (∀ k ∈ A, dictLookup (runSched fetch sched s).coll k =
        if k ∈ (runSched fetch sched s).rem.flatten then none else fetch k) := by
  induction sched generalizing s with
  | nil => exact ⟨h1, h2, h3⟩
  | cons i is ih =>
    have hstep := workerStep_inv fetch A s i h1 h2 h3
    exact ih (workerStep fetch s i) hstep.1 hstep.2.1 hstep.2.2

/-- C9: the poll is a barrier.  In the interleaved thread model, whenever a
schedule has drained every worker's batch — which the join loop of
Zetta.collect guarantees before the Document Builder runs — the shared
collection holds the final fetch outcome for every identifier of every
batch: each identifier whose fetch succeeded has its entry present, and
each failed fetch is absent. -/
theorem poll_barrier (fetch : String → Option StationStatus)
    (batches : List (List String)) (sched : List Nat)
    (hnd : batches.flatten.Nodup)
    (hdone : (runSched fetch sched ⟨batches, []⟩).rem.flatten = []) :
    ∀ k ∈ batches.flatten,
      dictLookup (runSched fetch sched ⟨batches, []⟩).coll k = fetch k := by
  intro k hk
  have hinv := runSched_inv fetch batches.flatten sched ⟨batches, []⟩ hnd
    (fun _ hm => hm)
    (fun k1 hkA => by rw [dictLookup_nil, if_pos hkA])
  have hfin := hinv.2.2 k hk
  rw [hdone] at hfin
  simpa using hfin

/-- Witness for poll_barrier: two workers under an interleaved schedule,
one succeeding fetch and one failing. -/
theorem poll_barrier_witness :
    dictLookup (runSched wFetch [1, 0] ⟨[["a"], ["b"]], []⟩).coll "a" = wFetch "a" :=
  poll_barrier wFetch [["a"], ["b"]] [1, 0] (by decide) (by decide) "a" (by decide)

/-! Properties of the constructor, the directory builder and the document
builder. -/

/-- C1 (code bug witness): against an empty directory the poll produces an
empty status map and an empty document list, and Zetta.collect aborts with
IndexError at the debug print documents[0] instead of returning the empty
sequence. -/
theorem collect_empty_store_raises :
    collect "127.0.0.1" (fun _ => none) [] = Except.error "IndexError" := by
  simp [collect, runPoll, grouper_nil, buildDocuments]

/-- C3: the produced fields record holds none of the five current-playback
keys when the playlist sequence of the station status is empty, and all
five, sourced from the head element, when it is non-empty. -/
theorem current_fields_head (k : String) (st : Station) (v : StationStatus) :
    match v.onAirStatusLogEvents with
    | [] =>
      (mkFields k st v).s_current_artist = none ∧
      (mkFields k st v).s_current_assetType = none ∧
      (mkFields k st v).s_current_chainType = none ∧
      (mkFields k st v).s_current_status_code = none ∧
      (mkFields k st v).s_current_title = none
    | e :: _ =>
      (mkFields k st v).s_current_artist = some e.artist ∧
      (mkFields k st v).s_current_assetType = some e.assetType ∧
      (mkFields k st v).s_current_chainType = some e.chainType ∧
      (mkFields k st v).s_current_status_code = some e.statusCode ∧
      (mkFields k st v).s_current_title = some e.title := by
  obtain ⟨evs, vmode, vstatus⟩ := v
  cases evs <;> simp [mkFields]

/-- C7: construction gets past the credential check exactly when the parsed
API key, username and password are all non-empty; a missing or empty
credential leaves the corresponding attribute empty and construction aborts
via sys.exit. -/
theorem credential_check (kwargs : List (String × String)) :
    (zettaInit kwargs).isSome ↔
      ((parseParams kwargs).apikey ≠ "" ∧ (parseParams kwargs).username ≠ "" ∧
        (parseParams kwargs).password ≠ "") := by
  unfold zettaInit
  by_cases h1 : (parseParams kwargs).apikey = "" <;>
    by_cases h2 : (parseParams kwargs).username = "" <;>
      by_cases h3 : (parseParams kwargs).password = "" <;>
        simp [h1, h2, h3]

/-- Witness for credential_check: complete credentials pass the check,
evaluated on a concrete keyword-argument list. -/
theorem credential_check_witness :
    (zettaInit [("port", "3000"), ("apikey", "1234"), ("username", "admin"),
      ("password", "password")]).isSome :=
  (credential_check [("port", "3000"), ("apikey", "1234"), ("username", "admin"),
    ("password", "password")]).mpr (by decide)

/-- C8: directory construction is deterministic in the backend responses:
equal response pairs produce identical station maps, with identical key
order and identical per-station group sequences. -/
theorem buildDirectory_deterministic (s1 s2 : Option StationListResponse)
    (o1 o2 : Option OrgListResponse) (hs : s1 = s2) (ho : o1 = o2) :
    buildDirectory s1 o1 = buildDirectory s2 o2 := by
  rw [hs, ho]

/-- Witness for buildDirectory_deterministic at concrete responses. -/
theorem buildDirectory_deterministic_witness :
    buildDirectory (some ⟨some "success", [wStation]⟩) none =
      buildDirectory (some ⟨some "success", [wStation]⟩) none :=
  buildDirectory_deterministic _ _ _ _ rfl rfl

theorem stationFold_fresh (recs : List RawStation) (d : List (String × Station))
    (hd : ∀ r ∈ recs, r.uuid ∉ d.map Prod.fst)
    (hnd : (recs.map RawStation.uuid).Nodup) :
    stationFold recs d = d ++ recs.map (fun r => (r.uuid, mkStation r)) := by
  induction recs generalizing d with
  | nil => simp [stationFold]
  | cons r rs ih =>
    rw [List.map_cons, List.nodup_cons] at hnd
    have hfresh : ∀ p ∈ d, p.1 ≠ r.uuid := fun p hp hc =>
      hd r (List.mem_cons_self _ _) (hc ▸ List.mem_map.mpr ⟨p, hp, rfl⟩)
    have step : stationFold (r :: rs) d = stationFold rs (dictUpdate d r.uuid (mkStation r)) := rfl
    have hd2 : ∀ r' ∈ rs, r'.uuid ∉ (d ++ [(r.uuid, mkStation r)]).map Prod.fst := by
      intro r' hr' hmem
      rw [List.map_append] at hmem
      rcases List.mem_append.mp hmem with h | h
      · exact hd r' (List.mem_cons_of_mem _ hr') h
      · have heq : r'.uuid = r.uuid := by simpa using h
        exact hnd.1 (heq ▸ List.mem_map.mpr ⟨r', hr', rfl⟩)
    rw [step, dictUpdate_fresh d r.uuid (mkStation r) hfresh, ih _ hd2 hnd.2]
    simp

/-- C5: collect_stations is a total function of the fetch outcome (every
exception is caught, none reaches the caller); transport failure or an
invalid envelope yields the empty directory, and success yields every
fetched record keyed by its identifier with an initialized empty group
list, in response order. -/
theorem collect_stations_spec :
    collect_stations none = ([] : List (String × Station)) ∧
      (∀ r : StationListResponse, envelopeFails r.responseType = true →
        collect_stations (some r) = []) ∧
      (∀ r : StationListResponse, envelopeFails r.responseType = false →
        (r.dataObject.map RawStation.uuid).Nodup →
        collect_stations (some r) =
          r.dataObject.map (fun s => (s.uuid, mkStation s))) := by
  refine ⟨rfl, ?_, ?_⟩
  · intro r h
    simp [collect_stations, h]
  · intro r h hnd
    simp only [collect_stations, h]
    rw [if_neg (by simp [h])]
    simpa using stationFold_fresh r.dataObject [] (by simp) hnd

/-- Witness for collect_stations_spec: a successful one-station response
yields exactly that station, keyed by uuid, with empty groups. -/
theorem collect_stations_spec_witness :
    collect_stations (some ⟨some "success", [wStation]⟩) =
      [wStation].map (fun s => (s.uuid, mkStation s)) :=
  collect_stations_spec.2.2 ⟨some "success", [wStation]⟩ (by decide) (by decide)

theorem mem_keys_dictUpdate {d : List (String × α)} {k u : String} {v : α}
    (h : k ∈ (dictUpdate d u v).map Prod.fst) : k ∈ d.map Prod.fst ∨ k = u := by
  rw [keys_dictUpdate] at h
  by_cases hmem : u ∈ d.map Prod.fst
  · rw [if_pos hmem] at h
    exact Or.inl h
  · rw [if_neg hmem] at h
    rcases List.mem_append.mp h with h | h
    · exact Or.inl h
    · exact Or.inr (by simpa using h)

theorem station_process_keys_subset (fetch : String → Option StationStatus)
    (g : List (Option String)) (coll : List (String × StationStatus)) :
    ∀ k ∈ (station_process fetch g coll).map Prod.fst,
      k ∈ coll.map Prod.fst ∨ some k ∈ g := by
  induction g generalizing coll with
  | nil => exact fun k hk => Or.inl hk
  | cons o os ih =>
    intro k hk
    match o with
    | none =>
      exact (ih coll k hk).imp id (List.mem_cons_of_mem _)
    | some u =>
      by_cases hu : u = ""
      · have hred : station_process fetch (some u :: os) coll = station_process fetch os coll := by
          simp [station_process, List.foldl_cons, hu]
        rw [hred] at hk
        exact (ih coll k hk).imp id (List.mem_cons_of_mem _)
      · cases hf : fetch u with
        | none =>
          have hred : station_process fetch (some u :: os) coll =
              station_process fetch os coll := by
            simp [station_process, List.foldl_cons, hu, hf]
          rw [hred] at hk
          exact (ih coll k hk).imp id (List.mem_cons_of_mem _)
        | some resp =>
          have hred : station_process fetch (some u :: os) coll =
              station_process fetch os (dictUpdate coll u resp) := by
            simp [station_process, List.foldl_cons, hu, hf]
          rw [hred] at hk
          rcases ih _ k hk with h | h
          · rcases mem_keys_dictUpdate h with h | rfl
            · exact Or.inl h
            · exact Or.inr (List.mem_cons_self _ _)
          · exact Or.inr (List.mem_cons_of_mem _ h)

theorem runPoll_fold_keys (fetch : String → Option StationStatus)
    (gs : List (List (Option String))) (coll : List (String × StationStatus)) :
    ∀ k ∈ (gs.foldl (fun c g => station_process fetch g c) coll).map Prod.fst,
      k ∈ coll.map Prod.fst ∨ ∃ g ∈ gs, some k ∈ g := by
  induction gs generalizing coll with
  | nil => exact fun k hk => Or.inl hk
  | cons g gs ih =>
    intro k hk
    rcases ih (station_process fetch g coll) k hk with h | ⟨g1, hg1, hkg⟩
    · rcases station_process_keys_subset fetch g coll k h with h | h
      · exact Or.inl h
      · exact Or.inr ⟨g, List.mem_cons_self _ _, h⟩
    · exact Or.inr ⟨g1, List.mem_cons_of_mem _ hg1, hkg⟩

/-- C4: for any mix of per-station successes and failures, the key set of
the status result map produced by the poll is a subset of the directory
key set. -/
theorem statusMap_keys_subset (fetch : String → Option StationStatus)
    (store : List (String × Station)) :
    ∀ k ∈ (runPoll fetch store).map Prod.fst, k ∈ store.map Prod.fst := by
  intro k hk
  rcases runPoll_fold_keys fetch _ [] k hk with h | ⟨g, hg, hkg⟩
  · simp at h
  · exact grouper_mem_real hg hkg

/-- Witness for statusMap_keys_subset on a one-station store. -/
theorem statusMap_keys_subset_witness :
    "a" ∈ ([("a", mkStation wStation)].map Prod.fst : List String) :=
  statusMap_keys_subset wFetch [("a", mkStation wStation)] "a" (by
    simp [runPoll, POLLNG_GROUPS, grouper, station_process, dictUpdate, wFetch])

theorem mkFields_uuid (k : String) (st : Station) (v : StationStatus) :
    (mkFields k st v).s_uuid = k := by
  obtain ⟨evs, vmode, vstatus⟩ := v
  cases evs <;> simp [mkFields]

/-- C6: a Document is produced exactly for the identifiers present in the
status result map, in the map's iteration order: an identifier whose fetch
failed contributes no document, placeholder or otherwise. -/
theorem documents_exactly_statusMap (host : String) (store : List (String × Station))
    (coll : List (String × StationStatus))
    (hsub : ∀ k ∈ coll.map Prod.fst, (dictLookup store k).isSome) :
    ∃ docs, buildDocuments host store coll = some docs ∧
      docs.map (fun d => d.fields.s_uuid) = coll.map Prod.fst := by
  induction coll with
  | nil => exact ⟨[], rfl, rfl⟩
  | cons p ps ih =>
    obtain ⟨k, v⟩ := p
    have hk : (dictLookup store k).isSome := hsub k (by simp)
    rcases Option.isSome_iff_exists.mp hk with ⟨st, hst⟩
    have hsub2 : ∀ k1 ∈ ps.map Prod.fst, (dictLookup store k1).isSome := by
      intro k1 hk1
      exact hsub k1 (by simp [hk1])
    rcases ih hsub2 with ⟨ds, hds, hmap⟩
    refine ⟨mkDocument host k st v :: ds, ?_, ?_⟩
    · simp [buildDocuments, hst, hds]
    · simp [hmap, mkDocument, mkFields_uuid]

/-- Witness for documents_exactly_statusMap on a singleton status map. -/
theorem documents_exactly_statusMap_witness :
    ∃ docs, buildDocuments "h" [("a", mkStation wStation)] [("a", wStatus)] = some docs ∧
      docs.map (fun d => d.fields.s_uuid) = [("a", wStatus)].map Prod.fst :=
  documents_exactly_statusMap "h" _ _ (by decide)

end RcsZetta
